import Mathlib

/-!
Verification of the prodpy decline-curve engine (Arps decline models).

Shallow embedding conventions:
- numpy arrays are evaluated element-wise, so array-valued formulas are
  embedded as functions of one real input x;
- the decline exponent b and other dispatch-relevant scalars are embedded
  as rationals (Python floats are rational numbers, and the source compares
  them by exact equality), while the analytic formulas live in the reals;
- NaN-aware array code is embedded over lists of optional reals, with
  none standing for NaN;
- code that can raise a Python exception is embedded with Option or Except,
  and calls to the logging module are collected in a list of strings paired
  with the result.
-/

namespace Prodpy

/-- Embeds the Python string method `lower`, used by `Arps.get_b` and the
`Arps.mode` property. -/
def strLower (s : String) : String := ⟨s.data.map Char.toLower⟩

/-- Embeds `Arps.get_mode` from src/prodpy/decline/_arpmod.py: returns the
mode name from the exponent value, by exact equality tests against 0 and 1. -/
def get_mode (b : ℚ) : String :=
  if b = 0 then "Exponential"
  else if b = 1 then "Harmonic"
  else "Hyperbolic"

/-- Embeds `Arps.get_b` from src/prodpy/decline/_arpmod.py: returns the
exponent from the mode name; an unrecognized name is logged and the
function falls through returning Python None, embedded as Option.none. -/
def get_b (mode : String) : Option ℚ :=
  if strLower mode = "exponential" ∨ strLower mode = "exp" then some 0
  else if strLower mode = "hyperbolic" ∨ strLower mode = "hyp" then some (1/2)
  else if strLower mode = "harmonic" ∨ strLower mode = "har" then some 1
  else none

/-- Embeds `Arps.frwexp`: q = qi * exp(-Di*t). -/
noncomputable def frwexp (Di yi x xi : ℝ) : ℝ :=
  yi * Real.exp (-Di * (x - xi))

/-- Embeds `Arps.frwhyp`: q = q0 / (1+b*Di*t)**(1/b). -/
noncomputable def frwhyp (Di yi x xi : ℝ) (b : ℚ) : ℝ :=
  yi / (1 + (b : ℝ) * Di * (x - xi)) ^ ((1 : ℝ) / (b : ℝ))

/-- Embeds `Arps.frwhar`: q = q0 / (1+Di*t). -/
noncomputable def frwhar (Di yi x xi : ℝ) : ℝ :=
  yi / (1 + Di * (x - xi))

/-- Embeds `Arps.frw`: dispatches on the mode derived from the exponent b
(the source builds the method name from the first three lowercased letters
of the mode, passing b as an extra argument only when b is neither 0 nor 1). -/
noncomputable def frw (b : ℚ) (Di yi x xi : ℝ) : ℝ :=
  match get_mode b with
  | "Exponential" => frwexp Di yi x xi
  | "Harmonic" => frwhar Di yi x xi
  | _ => frwhyp Di yi x xi b

/-- Embeds `Arps.cumexp`: Np = qi / Di * (1-exp(-Di*t)). -/
noncomputable def cumexp (Di yi x xi : ℝ) : ℝ :=
  (yi / Di) * (1 - Real.exp (-Di * (x - xi)))

/-- Embeds `Arps.cumhyp`: Np = q0 / ((1-b)*Di)*(1-(1+b*Di*t)**(1-1/b)). -/
noncomputable def cumhyp (Di yi x xi : ℝ) (b : ℚ) : ℝ :=
  (yi / Di) / (1 - (b : ℝ)) *
    (1 - (1 + (b : ℝ) * Di * (x - xi)) ^ ((1 : ℝ) - 1 / (b : ℝ)))

/-- Embeds `Arps.cumhar`: Np = q0 / Di * ln(1+Di*t). -/
noncomputable def cumhar (Di yi x xi : ℝ) : ℝ :=
  (yi / Di) * Real.log (1 + Di * (x - xi))

/-- Embeds `Arps.cum`: dispatches on the mode derived from the exponent b,
exactly as `Arps.frw` does. -/
noncomputable def cum (b : ℚ) (Di yi x xi : ℝ) : ℝ :=
  match get_mode b with
  | "Exponential" => cumexp Di yi x xi
  | "Harmonic" => cumhar Di yi x xi
  | _ => cumhyp Di yi x xi b

/-- Embeds numpy elementwise subtraction with NaN propagation: a NaN operand
(none) makes the result NaN. -/
def nanSub (a b : Option ℝ) : Option ℝ :=
  match a, b with
  | some x, some y => some (x - y)
  | _, _ => none

/-- Embeds numpy elementwise squaring with NaN propagation. -/
def nanSq (a : Option ℝ) : Option ℝ :=
  a.map (fun x => x ^ 2)

/-- Embeds `numpy.nansum`: NaN entries are treated as zero, so the sum runs
over the non-NaN entries. -/
noncomputable def nansum (l : List (Option ℝ)) : ℝ :=
  (l.filterMap id).sum

/-- Embeds `numpy.nanmean`: the mean of the non-NaN entries, NaN when every
entry is NaN. -/
noncomputable def nanmean (l : List (Option ℝ)) : Option ℝ :=
  if (l.filterMap id).length = 0 then none
  else some ((l.filterMap id).sum / (l.filterMap id).length)

/-- Embeds `Arps.rsquared` from src/prodpy/decline/_arpmod.py:
ssres = nansum((yobs-ycal)**2), sstot = nansum((yobs-nanmean(yobs))**2),
result 1 - ssres/sstot; division is embedded as total real division. -/
noncomputable def rsquared (ycal yobs : List (Option ℝ)) : ℝ :=
  let ssres := nansum ((List.zipWith nanSub yobs ycal).map nanSq)
  let sstot := nansum (yobs.map (fun v => nanSq (nanSub v (nanmean yobs))))
  1 - ssres / sstot

/-- Follows the words of the spec for C5: every index at which either ycal or
yobs is NaN is excluded from both the numerator sum and the denominator sum,
and the mean is taken over the same included entries. -/
noncomputable def rsquaredSpec (ycal yobs : List (Option ℝ)) : ℝ :=
  let pairs := (List.zip ycal yobs).filterMap
    (fun p => match p with
      | (some a, some b) => some (a, b)
      | _ => none)
  let ssres := (pairs.map (fun p => (p.2 - p.1) ^ 2)).sum
  let m := (pairs.map Prod.snd).sum / pairs.length
  let sstot := (pairs.map (fun p => (p.2 - m) ^ 2)).sum
  1 - ssres / sstot

/-- Embeds a numpy double for the data-cleaning code: NaN, one of the two
infinities, or a finite value (finite Python floats are rational numbers). -/
inductive F where
  | nan : F
  | inf : F
  | ninf : F
  | num : ℚ → F
deriving DecidableEq

/-- Embeds `numpy.isnan` on one entry. -/
def F.isnan : F → Bool
  | F.nan => true
  | _ => false

/-- Embeds the numpy comparison y != 0 on one entry: NaN and both infinities
compare not-equal to zero. -/
def F.neZero : F → Bool
  | F.num q => q != 0
  | _ => true

/-- Embeds an exact-zero test on one entry. -/
def F.iszero : F → Bool
  | F.num q => q == 0
  | _ => false

/-- Embeds `numpy.isfinite` on one entry. -/
def F.isfinite : F → Bool
  | F.num _ => true
  | _ => false

/-- Embeds the boolean mask `~numpy.isnan(y) & (y!=0)` of `Arps.nzero`. -/
def nzeroMask (v : F) : Bool := !v.isnan && v.neZero

/-- Embeds `Arps.nzero` from src/prodpy/decline/_arpmod.py: the mask computed
from y is applied to both arrays (x is paired with y entrywise). -/
def nzero (x y : List F) : List F × List F :=
  (((x.zip y).filter (fun p => nzeroMask p.2)).map Prod.fst,
   y.filter nzeroMask)

/-- Embeds the mask of the filter `yobs!=0` on line 30 of
src/prodpy/decline/arps/_hyperbolic.py: only an exact zero fails it. -/
def hypFilterMask (v : F) : Bool := v.neZero

/-- Follows the words of the spec for C6: every observation whose y value is
non-finite (NaN or infinite) or exactly zero is dropped from both arrays. -/
def specClean (x y : List F) : List F × List F :=
  (((x.zip y).filter (fun p => p.2.isfinite && p.2.neZero)).map Prod.fst,
   y.filter (fun v => v.isfinite && v.neZero))

/-- Embeds the scipy linregress output fields that the decline code reads. -/
structure LinReg where
  slope : ℝ
  intercept : ℝ

/-- Embeds the Python multiple assignment `a, b = rhs` for a right-hand side
tuple holding vals.length values: it succeeds exactly when there are two. -/
def tupleAssign2 (vals : List ℝ) : Except String (ℝ × ℝ) :=
  match vals with
  | [a, b] => Except.ok (a, b)
  | _ => Except.error "ValueError: too many values to unpack"

/-- Modelled from the spec: `GenModel.xshift` is not under src/ (only its
caller in _hyperbolic.py is); per the spec, when a shift xi is given only
the points with x at least xi participate, and x is re-based to x - xi. -/
def xshift (x y : List ℚ) (xi : ℚ) : List ℚ × List ℚ :=
  (((x.zip y).filter (fun p => xi ≤ p.1)).map (fun p => p.1 - xi),
   ((x.zip y).filter (fun p => xi ≤ p.1)).map Prod.snd)

/-- Embeds the multiple assignment on line 34 of
src/prodpy/decline/arps/_hyperbolic.py:
Di,yi = 0,0 if linear is None else slope/intercept/xp,intercept**(-1/xp).
The conditional expression binds only the middle element, so the right-hand
side is the 3-tuple (0, 0 if linear is None else slope/intercept/xp,
intercept**(-1/xp)); its third element is evaluated first, so an absent
linear result raises AttributeError on None, and otherwise unpacking three
values into the two names Di, yi raises ValueError. -/
noncomputable def line34 (linear : Option LinReg) (xp : ℚ) :
    Except String (ℝ × ℝ) :=
  match linear with
  | none => Except.error "AttributeError: NoneType has no attribute intercept"
  | some l =>
      tupleAssign2
        [0, l.slope / l.intercept / (xp : ℝ),
         l.intercept ^ (-(1 : ℝ) / (xp : ℝ))]

/-- Embeds `Hyperbolic.regress` from src/prodpy/decline/arps/_hyperbolic.py
up to the multiple assignment that computes the nonlinear parameters, with
the inherited least-squares routine abstracted as the parameter ols: after
shifting and dropping zero y entries it regresses (1/y)**b on x, then runs
the line 34 assignment on the outcome; the later lines of the function are
unreachable because that assignment always raises. -/
noncomputable def hypRegress (ols : List ℚ → List ℝ → Option LinReg)
    (xp : ℚ) (x yobs : List ℚ) (xi : ℚ) : Except String (ℝ × ℝ) :=
  let s := xshift x yobs xi
  let kept := (s.1.zip s.2).filter (fun p => p.2 != 0)
  let linear := ols (kept.map Prod.fst)
    ((kept.map Prod.snd).map (fun v => ((1 : ℝ) / (v : ℝ)) ^ ((xp : ℚ) : ℝ)))
  line34 linear xp

/-- Embeds `Arps.regress` from src/prodpy/decline/_arpmod.py with the scipy
linregress call abstracted as the fallible parameter linreg: an exception is
caught and logged, after which the function falls through returning Python
None; on success the result is returned with nothing logged. -/
def regress (linreg : List ℚ → List ℚ → Except String LinReg)
    (x y : List ℚ) : Option LinReg × List String :=
  match linreg x y with
  | Except.error e => (none, ["Error occurred: " ++ e])
  | Except.ok l => (some l, [])

/-- Embeds `Arps.invexp` from src/prodpy/decline/_arpmod.py: the body is a
static method whose first statement `x,yobs = self.shift(x,yobs,xi)` reads
the names self and yobs, neither of which is bound in its scope, so every
call raises NameError before any regression or logging happens; the
embedding returns that error together with the empty log. -/
def invexp (x y : List ℚ) (xi : Option ℚ) :
    Except String (ℝ × ℝ) × List String :=
  (Except.error "NameError: name self is not defined", [])

/-- Embeds `Arps.cum` under Python scalar semantics for the Di = 0 question:
each of the three branch functions evaluates yi/Di on plain floats first,
which raises ZeroDivisionError when Di = 0 (none in the embedding), and no
branch calls the logging module, so the emitted log list is always empty;
for nonzero Di the value is the real closed form of the dispatched mode.
Parameters are the rational values of the scalar float inputs. -/
noncomputable def cumScalar (b Di yi x xi : ℚ) : Option ℝ × List String :=
  (if Di = 0 then none
   else some (cum b (Di : ℝ) (yi : ℝ) (x : ℝ) (xi : ℝ)), [])

/-- Embeds one iteration of the loop body of `Analysis.mrun` from
src/prodpy/_analysis.py, over a row type a and a model type b. The module
imports only datetime, pandas, Arps and TimeSpan, so the elapsed-days call
`dates.days(model.date0)` resolves, but the next statement
`curve = Curve(model).run(days)` on line 53 reads the name Curve, which is
never imported or defined in the module: every iteration raises NameError
there, before any table is produced or the accumulator frame is touched. -/
def mrunBody (a b : Type) (model : b) (acc : Option (List a)) :
    Except String (Option (List a)) :=
  Except.error "NameError: name Curve is not defined"

/-- Embeds the loop of `Analysis.mrun`: the accumulator holds the frame
built so far, none while the name frame is still unbound (the source tests
index==1, which holds exactly when the accumulator is still none); an
exception raised by the body propagates out of the loop. -/
def mrunLoop (a b : Type) :
    List (String × b) → Option (List a) → Except String (Option (List a))
  | [], acc => Except.ok acc
  | (_, m) :: rest, acc =>
      match mrunBody a b m acc with
      | Except.error e => Except.error e
      | Except.ok acc2 => mrunLoop a b rest acc2

/-- Embeds `Analysis.mrun` from src/prodpy/_analysis.py: the models dict is
embedded as its insertion-ordered association list; after the loop the
source returns `frame.reset_index(drop=True)`, which on the empty dict
reads the never-assigned local name frame and raises. -/
def mrun (a b : Type) (models : List (String × b)) :
    Except String (List a) :=
  match mrunLoop a b models none with
  | Except.error e => Except.error e
  | Except.ok none =>
      Except.error "UnboundLocalError: local variable frame referenced before assignment"
  | Except.ok (some f) => Except.ok f

/-- Packs one (yobs, ycal) pair into its squared residual, NaN when either
side is NaN; used to state what the numerator of `rsquared` sums. -/
def pairSq (p : Option ℝ × Option ℝ) : Option ℝ :=
  match p with
  | (some b, some a) => some ((b - a) ^ 2)
  | _ => none

theorem get_mode_of_lt (b : ℚ) (h0 : 0 < b) (h1 : b < 1) :
    get_mode b = "Hyperbolic" := by
  unfold get_mode
  rw [if_neg (by exact ne_of_gt h0), if_neg (by exact ne_of_lt h1)]

theorem nzeroMask_eq : nzeroMask = fun v => !(v.isnan) && !(v.iszero) := by
  funext v
  cases v <;> simp [nzeroMask, F.isnan, F.neZero, F.iszero, bne]

theorem zip_filter_snd_length (m : F → Bool) (x y : List F)
    (h : x.length = y.length) :
    (((x.zip y).filter (fun p => m p.2)).map Prod.fst).length
      = (y.filter m).length := by
  induction x generalizing y with
  | nil =>
    cases y with
    | nil => rfl
    | cons b tl => simp at h
  | cons a tl ih =>
    cases y with
    | nil => simp at h
    | cons b tl2 =>
      have h2 : tl.length = tl2.length := by simpa using h
      cases hm : m b <;>
        simp [List.zip_cons_cons, List.filter_cons, hm, ih tl2 h2]

theorem nansum_cons_some (v : ℝ) (l : List (Option ℝ)) :
    nansum (some v :: l) = v + nansum l := by
  simp [nansum]

theorem nansum_cons_none (l : List (Option ℝ)) :
    nansum (none :: l) = nansum l := by
  simp [nansum]

theorem nansum_zipWith (yobs ycal : List (Option ℝ)) :
    nansum ((List.zipWith nanSub yobs ycal).map nanSq)
      = ((yobs.zip ycal).filterMap pairSq).sum := by
  induction yobs generalizing ycal with
  | nil => simp [nansum]
  | cons b tl ih =>
    cases ycal with
    | nil => simp [nansum]
    | cons a tl2 =>
      cases b <;> cases a <;>
        simp [List.zipWith_cons_cons, List.map_cons, nanSub, nanSq,
          nansum_cons_some, nansum_cons_none, List.zip_cons_cons,
          List.filterMap_cons, pairSq, ih]

theorem nansum_sub_none (yobs : List (Option ℝ)) :
    nansum (yobs.map (fun v => nanSq (nanSub v none))) = 0 := by
  induction yobs with
  | nil => simp [nansum]
  | cons b tl ih =>
    rw [List.map_cons, show nanSq (nanSub b none) = none by cases b <;> rfl,
      nansum_cons_none, ih]

theorem nansum_sub_some (yobs : List (Option ℝ)) (m : ℝ) :
    nansum (yobs.map (fun v => nanSq (nanSub v (some m))))
      = ((yobs.filterMap id).map (fun b => (b - m) ^ 2)).sum := by
  induction yobs with
  | nil => simp [nansum]
  | cons b tl ih =>
    rw [List.map_cons]
    cases b with
    | none =>
      rw [show nanSq (nanSub none (some m)) = none from rfl, nansum_cons_none, ih]
      simp [List.filterMap_cons]
    | some v =>
      rw [show nanSq (nanSub (some v) (some m)) = some ((v - m) ^ 2) from rfl,
        nansum_cons_some, ih]
      simp [List.filterMap_cons]

/-- C1: forward evaluation dispatches b = 0 to the exponential closed form,
b = 1 to the harmonic closed form (dedicated branches, not the general
hyperbolic formula), and 0 < b < 1 to the hyperbolic closed form with the
exponent passed through. -/
theorem frw_dispatch (b : ℚ) (Di yi x xi : ℝ) :
    frw 0 Di yi x xi = yi * Real.exp (-Di * (x - xi)) ∧
    get_mode 0 = "Exponential" ∧
    (0 < b → b < 1 →
      frw b Di yi x xi
        = yi / (1 + (b : ℝ) * Di * (x - xi)) ^ ((1 : ℝ) / (b : ℝ))) ∧
    frw 1 Di yi x xi = yi / (1 + Di * (x - xi)) ∧
    get_mode 1 = "Harmonic" := by
  refine ⟨rfl, rfl, ?_, rfl, rfl⟩
  intro h0 h1
  unfold frw
  rw [get_mode_of_lt b h0 h1]
  rfl

/-- C1 witness: the dispatch theorem applied at b = 1/2, Di = 1, yi = 1,
x = 2, xi = 0. -/
theorem frw_dispatch_witness :
    frw (1/2) 1 1 2 0
      = 1 / (1 + ((1/2 : ℚ) : ℝ) * 1 * (2 - 0)) ^ ((1 : ℝ) / ((1/2 : ℚ) : ℝ)) :=
  (frw_dispatch (1/2) 1 1 2 0).2.2.1 (by norm_num) (by norm_num)

/-- C4: cumulative evaluation dispatches b = 0 to the exponential cumulative
form, b = 1 to the harmonic cumulative form, and 0 < b < 1 to the hyperbolic
cumulative form with the exponent passed through. -/
theorem cum_dispatch (b : ℚ) (Di yi x xi : ℝ) (hD : Di ≠ 0) :
    cum 0 Di yi x xi = (yi / Di) * (1 - Real.exp (-Di * (x - xi))) ∧
    (0 < b → b < 1 →
      cum b Di yi x xi
        = (yi / Di) / (1 - (b : ℝ)) *
            (1 - (1 + (b : ℝ) * Di * (x - xi)) ^ ((1 : ℝ) - 1 / (b : ℝ)))) ∧
    cum 1 Di yi x xi = (yi / Di) * Real.log (1 + Di * (x - xi)) := by
  refine ⟨rfl, ?_, rfl⟩
  intro h0 h1
  unfold cum
  rw [get_mode_of_lt b h0 h1]
  rfl

/-- C4 witness: the cumulative dispatch theorem applied at b = 1/2, Di = 1,
yi = 1, x = 2, xi = 0. -/
theorem cum_dispatch_witness :
    cum (1/2) 1 1 2 0
      = (1 / 1) / (1 - ((1/2 : ℚ) : ℝ)) *
          (1 - (1 + ((1/2 : ℚ) : ℝ) * 1 * (2 - 0)) ^ ((1 : ℝ) - 1 / ((1/2 : ℚ) : ℝ))) :=
  (cum_dispatch (1/2) 1 1 2 0 (by norm_num)).2.1 (by norm_num) (by norm_num)

/-- C8 counterexample: the harmonic forward curve with Di = 1, yi = 1, xi = 0
is not strictly decreasing over all of the reals: it evaluates to -1 at
x = -2 and to 1 at x = 0, jumping upward across the pole at x = -1, so
backward extrapolation breaks strict monotonicity. -/
theorem frw_not_strictAnti :
    ¬ StrictAnti (fun x : ℝ => frw 1 1 1 x 0) := by
  intro h
  have h2 := h (show (-2 : ℝ) < 0 by norm_num)
  have e1 : frw 1 1 1 (-2 : ℝ) 0 = -1 := by
    rw [show frw 1 1 1 (-2 : ℝ) 0 = (1 : ℝ) / (1 + 1 * ((-2) - 0)) from rfl]
    norm_num
  have e2 : frw 1 1 1 (0 : ℝ) 0 = 1 := by
    rw [show frw 1 1 1 (0 : ℝ) 0 = (1 : ℝ) / (1 + 1 * (0 - 0)) from rfl]
    norm_num
  simp only [e1, e2] at h2
  norm_num at h2

/-- C8 amended: for every exponent b in [0,1] and parameters Di > 0, yi > 0,
the forward curve is strictly decreasing on the set of inputs x where
1 + b*Di*(x-xi) is positive; for b = 0 that set is all of the reals, so the
exponential mode is strictly decreasing everywhere, while the hyperbolic and
harmonic modes are strictly decreasing only on the branch to the right of
the pole. -/
theorem frw_strictAntiOn (b : ℚ) (hb0 : 0 ≤ b) (hb1 : b ≤ 1)
    (Di yi xi : ℝ) (hD : 0 < Di) (hy : 0 < yi) :
    StrictAntiOn (fun x => frw b Di yi x xi)
      {x : ℝ | 0 < 1 + (b : ℝ) * Di * (x - xi)} := by
  rcases eq_or_lt_of_le hb0 with h0 | h0
  · subst h0
    intro x1 _ x2 _ hlt
    show frwexp Di yi x2 xi < frwexp Di yi x1 xi
    unfold frwexp
    have harg : -Di * (x2 - xi) < -Di * (x1 - xi) := by nlinarith
    exact mul_lt_mul_of_pos_left (Real.exp_lt_exp.mpr harg) hy
  · rcases eq_or_lt_of_le hb1 with h1 | h1
    · subst h1
      intro x1 hx1 x2 hx2 hlt
      simp only [Set.mem_setOf_eq] at hx1 hx2
      show frwhar Di yi x2 xi < frwhar Di yi x1 xi
      unfold frwhar
      have d1 : (0 : ℝ) < 1 + Di * (x1 - xi) := by push_cast at hx1; linarith
      have d2 : (0 : ℝ) < 1 + Di * (x2 - xi) := by push_cast at hx2; linarith
      exact div_lt_div_of_pos_left hy d1 (by nlinarith)
    · intro x1 hx1 x2 hx2 hlt
      simp only [Set.mem_setOf_eq] at hx1 hx2
      have hfr : ∀ z : ℝ, frw b Di yi z xi = frwhyp Di yi z xi b := by
        intro z
        unfold frw
        rw [get_mode_of_lt b h0 h1]
        rfl
      simp only [hfr]
      unfold frwhyp
      have hbR : (0 : ℝ) < (b : ℝ) := by exact_mod_cast h0
      have base_lt :
          1 + (b : ℝ) * Di * (x1 - xi) < 1 + (b : ℝ) * Di * (x2 - xi) := by
        nlinarith [mul_pos (mul_pos hbR hD) (sub_pos.mpr hlt)]
      have hrp :
          (1 + (b : ℝ) * Di * (x1 - xi)) ^ ((1 : ℝ) / (b : ℝ))
            < (1 + (b : ℝ) * Di * (x2 - xi)) ^ ((1 : ℝ) / (b : ℝ)) :=
        Real.rpow_lt_rpow (le_of_lt hx1) base_lt (by positivity)
      exact div_lt_div_of_pos_left hy (Real.rpow_pos_of_pos hx1 _) hrp

/-- C8 amended witness: the strict-antitonicity theorem applied in harmonic
mode with Di = 1, yi = 1, xi = 0 at the points 0 and 1, both to the right of
the pole. -/
theorem frw_strictAntiOn_witness : frw 1 1 1 (1 : ℝ) 0 < frw 1 1 1 0 0 :=
  frw_strictAntiOn 1 (by norm_num) (by norm_num) 1 1 0 (by norm_num) (by norm_num)
    (show (0 : ℝ) ∈ {x : ℝ | 0 < 1 + ((1 : ℚ) : ℝ) * 1 * (x - 0)} by
      simp only [Set.mem_setOf_eq]; norm_num)
    (show (1 : ℝ) ∈ {x : ℝ | 0 < 1 + ((1 : ℚ) : ℝ) * 1 * (x - 0)} by
      simp only [Set.mem_setOf_eq]; norm_num)
    (by norm_num)

/-- C7: mode and exponent lookups round-trip: get_b (get_mode (1/2)) is 1/2,
get_mode 0 is Exponential, get_mode 1 is Harmonic, and every exponent
strictly between 0 and 1 maps to Hyperbolic. -/
theorem mode_roundtrip :
    get_b (get_mode (1/2)) = some (1/2) ∧
    get_mode 0 = "Exponential" ∧
    get_mode 1 = "Harmonic" ∧
    (∀ b : ℚ, 0 < b → b < 1 → get_mode b = "Hyperbolic") := by
  refine ⟨?_, rfl, rfl, ?_⟩
  · rw [get_mode_of_lt (1/2) (by norm_num) (by norm_num)]
    rfl
  · intro b h0 h1
    exact get_mode_of_lt b h0 h1

/-- C7 witness: the round-trip theorem instantiated with b = 1/3 in its
universally quantified part. -/
theorem mode_roundtrip_witness :
    get_b (get_mode (1/2)) = some (1/2) ∧ get_mode (1/3) = "Hyperbolic" :=
  ⟨mode_roundtrip.1, mode_roundtrip.2.2.2 (1/3) (by norm_num) (by norm_num)⟩

/-- C6 counterexample: with x = [0, 1] and y = [inf, 2] the cleaning helper
nzero keeps the infinite entry, while the claim says every non-finite y entry
is dropped from both arrays. -/
theorem nzero_ne_spec :
    nzero [F.num 0, F.num 1] [F.inf, F.num 2]
      ≠ specClean [F.num 0, F.num 1] [F.inf, F.num 2] := by
  decide

/-- C6 amended: nzero drops exactly the entries whose y value is NaN or
exactly zero, aligned across both arrays; infinite y values pass its mask,
and the filter in Hyperbolic.regress lets both NaN and infinite y values
through, dropping exact zeros only. -/
theorem nzero_code_semantics (x y : List F) (h : x.length = y.length) :
    (nzero x y).2 = y.filter (fun v => !(v.isnan) && !(v.iszero)) ∧
    (nzero x y).1
      = ((x.zip y).filter (fun p => !(p.2.isnan) && !(p.2.iszero))).map Prod.fst ∧
    (nzero x y).1.length = (nzero x y).2.length ∧
    nzeroMask F.inf = true ∧ nzeroMask F.ninf = true ∧
    hypFilterMask F.nan = true ∧ hypFilterMask F.inf = true := by
  refine ⟨?_, ?_, ?_, rfl, rfl, rfl, rfl⟩
  · rw [show (nzero x y).2 = y.filter nzeroMask from rfl, nzeroMask_eq]
  · rw [show (nzero x y).1
        = ((x.zip y).filter (fun p => nzeroMask p.2)).map Prod.fst from rfl,
      nzeroMask_eq]
  · exact zip_filter_snd_length nzeroMask x y h

/-- C6 amended witness: the characterization applied to x = [0, 1] and
y = [NaN, 2], whose lengths agree. -/
theorem nzero_code_semantics_witness :
    (nzero [F.num 0, F.num 1] [F.nan, F.num 2]).1.length
      = (nzero [F.num 0, F.num 1] [F.nan, F.num 2]).2.length :=
  (nzero_code_semantics [F.num 0, F.num 1] [F.nan, F.num 2] (by decide)).2.2.1

/-- C5 counterexample: with ycal = [NaN, 1, 3] and yobs = [0, 2, 4] the code
excludes the NaN index only from the numerator: it returns
1 - 2/8 = 3/4, while excluding the index from both sums and from the mean,
as the claim states, would give 1 - 2/2 = 0. -/
theorem rsquared_ne_spec :
    rsquared [none, some 1, some 3] [some 0, some 2, some 4]
      ≠ rsquaredSpec [none, some 1, some 3] [some 0, some 2, some 4] := by
  simp only [rsquared, rsquaredSpec, nansum, nanmean, nanSub, nanSq,
    List.zipWith, List.zip, List.filterMap, List.map, List.sum_cons,
    List.sum_nil, List.length]
  norm_num

/-- C5 amended: rsquared excludes an index from the numerator sum whenever
either ycal or yobs is NaN there, but the denominator sum excludes only the
indices where yobs itself is NaN, and the mean is taken over all non-NaN
yobs entries regardless of ycal. -/
theorem rsquared_code_semantics (ycal yobs : List (Option ℝ)) :
    rsquared ycal yobs =
      1 - ((yobs.zip ycal).filterMap pairSq).sum /
        ((yobs.filterMap id).map
          (fun b =>
            (b - (yobs.filterMap id).sum / (yobs.filterMap id).length) ^ 2)).sum := by
  simp only [rsquared]
  rw [nansum_zipWith]
  by_cases h : (yobs.filterMap id).length = 0
  · have hnil : yobs.filterMap id = [] := List.length_eq_zero.mp h
    have hm : nanmean yobs = none := by rw [nanmean, if_pos h]
    rw [hm, nansum_sub_none, hnil]
    simp
  · have hm : nanmean yobs
        = some ((yobs.filterMap id).sum / (yobs.filterMap id).length) := by
      rw [nanmean, if_neg h]
    rw [hm, nansum_sub_some]

/-- C2: whatever the least-squares stage returns, Hyperbolic.regress never
produces the back-transformed parameters Di = slope/(intercept*b) and
yi = intercept^(-1/b): the multiple assignment on line 34 parses as a
3-tuple unpacked into two names, so the call raises AttributeError when the
linear fit is absent and ValueError otherwise, and the claimed return is
unreachable. -/
theorem hypRegress_always_raises (ols : List ℚ → List ℝ → Option LinReg)
    (xp : ℚ) (x yobs : List ℚ) (xi : ℚ) :
    ∃ e, hypRegress ols xp x yobs xi = Except.error e := by
  simp only [hypRegress]
  cases hols : ols (((xshift x yobs xi).1.zip (xshift x yobs xi).2).filter
      (fun p => p.2 != 0) |>.map Prod.fst)
    ((((xshift x yobs xi).1.zip (xshift x yobs xi).2).filter
      (fun p => p.2 != 0) |>.map Prod.snd).map
        (fun v => ((1 : ℝ) / (v : ℝ)) ^ ((xp : ℚ) : ℝ))) with
  | none => exact ⟨_, rfl⟩
  | some l => exact ⟨_, rfl⟩

/-- C3: the low-level Arps.regress helper does catch a failing least-squares
call, log it, and return an absent linear result without raising, but the
fitting operation Arps.invexp raises NameError to its caller on every input
instead of returning the (Di = 0, yi = 0) sentinel, so the claimed failure
policy does not hold of every regression/fitting operation. -/
theorem regress_catches_invexp_raises
    (linreg : List ℚ → List ℚ → Except String LinReg) (x y : List ℚ)
    (xi : Option ℚ) (e : String) (hfail : linreg x y = Except.error e) :
    regress linreg x y = (none, ["Error occurred: " ++ e]) ∧
    invexp x y xi = (Except.error "NameError: name self is not defined", []) := by
  constructor
  · simp [regress, hfail]
  · rfl

/-- C3 witness: the theorem applied to a least-squares stage that fails with
a degenerate-input message on the singleton data (1, 2). -/
theorem regress_catches_invexp_raises_witness :
    regress (fun _ _ => Except.error "degenerate input") [1] [2]
        = (none, ["Error occurred: " ++ "degenerate input"]) ∧
    invexp [1] [2] none
        = (Except.error "NameError: name self is not defined", []) :=
  regress_catches_invexp_raises (fun _ _ => Except.error "degenerate input")
    [1] [2] none "degenerate input" rfl

/-- C9 counterexample: cumulative evaluation in exponential mode with Di = 0,
yi = 1, x = 1, xi = 0 produces an unreported ZeroDivisionError: the log
component is empty where the claim requires the error to be reported. -/
theorem cum_zero_Di_unlogged :
    (cumScalar 0 0 1 1 0).2 = [] ∧ (cumScalar 0 0 1 1 0).1 = none := by
  constructor
  · rfl
  · simp [cumScalar]

/-- C9 amended: for every mode, cumulative evaluation with Di = 0 raises
ZeroDivisionError from the initial yi/Di; the exception propagates to the
caller with nothing logged, so no inf or NaN value is returned but no report
is made either. -/
theorem cumScalar_zero_Di (b yi x xi : ℚ) :
    cumScalar b 0 yi x xi = (none, []) := by
  simp [cumScalar]

/-- C10 counterexample: on the non-empty dict holding the single model 10
the first loop iteration of Analysis.mrun raises NameError, because the
name Curve is never imported or defined in src/prodpy/_analysis.py, so no
per-item table is produced or concatenated, refuting the claim that every
non-empty dict has its items processed and their tables concatenated. -/
theorem mrun_singleton_raises :
    mrun ℕ ℕ [("a", 10)]
      = Except.error "NameError: name Curve is not defined" := rfl

/-- C10 amended: Analysis.mrun returns a table for no input: on the empty
models dict the loop body never executes, the accumulating name frame is
never bound, and the final frame.reset_index call raises on the unbound
local name; on every non-empty dict the first iteration raises NameError,
since the name Curve is never imported or defined in the module, so the
items are never processed and no tables are concatenated. -/
theorem mrun_raises (a b : Type) :
    mrun a b []
      = Except.error
          "UnboundLocalError: local variable frame referenced before assignment" ∧
    ∀ models : List (String × b), models ≠ [] →
      mrun a b models
        = Except.error "NameError: name Curve is not defined" := by
  constructor
  · rfl
  · intro models hne
    cases models with
    | nil => exact absurd rfl hne
    | cons hd tl =>
      cases hd with
      | mk k m => rfl

/-- C10 amended witness: the theorem applied to the two-model dict, whose
nonemptiness is discharged concretely. -/
theorem mrun_raises_witness :
    mrun ℕ ℕ [("a", 10), ("b", 20)]
      = Except.error "NameError: name Curve is not defined" :=
  (mrun_raises ℕ ℕ).2 [("a", 10), ("b", 20)] (by simp)

end Prodpy
